import Mathlib

/-
  Verification of the nrcs_naip_scraper repository against its specification.

  The embedding models Python strings as `List Char` (named `Str` below) so that
  every operation is structurally recursive and kernel-computable.  Each
  definition is a direct translation of the corresponding function in
  `src/nrcs_naip_scraper/utils.py`, `src/nrcs_naip_scraper/scraper.py`,
  `src/nrcs_naip_scraper/cli.py` or `main.py`.
-/

namespace Naip

/-- Python `str` is modelled as a list of characters. -/
abbrev Str := List Char

/-- ASCII lower-casing of one character, as Python `str.lower` does on the
ASCII state codes and file names this program handles. -/
def charLower (c : Char) : Char :=
  if 65 ≤ c.toNat ∧ c.toNat ≤ 90 then Char.ofNat (c.toNat + 32) else c

/-- ASCII upper-casing of one character, as Python `str.upper` does on the
ASCII state codes this program handles. -/
def charUpper (c : Char) : Char :=
  if 97 ≤ c.toNat ∧ c.toNat ≤ 122 then Char.ofNat (c.toNat - 32) else c

/-- Python `s.lower()`. -/
def lowerStr (s : Str) : Str := s.map charLower

/-- Python `s.upper()`. -/
def upperStr (s : Str) : Str := s.map charUpper

/-- Does `s` start with `pat`?  Python `s.startswith(pat)`. -/
def startsWithL : Str → Str → Bool
  | _, [] => true
  | [], _ :: _ => false
  | c :: s, p :: ps => c == p && startsWithL s ps

/-- Does `s` end with `pat`?  Python `s.endswith(pat)`. -/
def endsWithL (s pat : Str) : Bool := startsWithL s.reverse pat.reverse

/-- Substring containment, Python `pat in s` (for the non-empty literal
patterns used by the program). -/
def containsL (s pat : Str) : Bool :=
  match s with
  | [] => pat.isEmpty
  | _ :: rest => startsWithL s pat || containsL rest pat

/-- One fuel-indexed step of Python `s.replace(pat, repl)`: left-to-right,
non-overlapping.  The fuel is only a termination device; `replaceAllL`
supplies `s.length`, which is never exhausted because every recursive call
consumes at least one character of `s`. -/
def replaceGo (pat repl : Str) : Nat → Str → Str
  | _, [] => []
  | 0, s => s
  | Nat.succ fuel, c :: rest =>
    if !pat.isEmpty && startsWithL (c :: rest) pat then
      repl ++ replaceGo pat repl fuel ((c :: rest).drop pat.length)
    else
      c :: replaceGo pat repl fuel rest

/-- Python `s.replace(pat, repl)` for the non-empty patterns used by the
program (the source only ever calls `filepath.replace('.zip', '')`). -/
def replaceAllL (s pat repl : Str) : Str := replaceGo pat repl s.length s

/-- Text after the first occurrence of `pat` in `s`, assuming the occurrence
exists; structural helper for `afterFirstL`. -/
def afterFirstGo (pat : Str) : Str → Str
  | [] => []
  | c :: rest =>
    if startsWithL (c :: rest) pat then (c :: rest).drop pat.length
    else afterFirstGo pat rest

/-- Python `s.split(pat, 1)[-1]`: everything after the first occurrence of
`pat` when `pat` occurs in `s`, otherwise `s` itself. -/
def afterFirstL (s pat : Str) : Str :=
  if containsL s pat then afterFirstGo pat s else s

/-- Python `s.rsplit(pat, 1)[0]`: everything before the last occurrence of
`pat` when `pat` occurs in `s`, otherwise `s` itself. -/
def beforeLastL (s pat : Str) : Str :=
  if containsL s pat then (afterFirstGo pat.reverse s.reverse).reverse else s

/-! ### Data model

One `Item` of the embedded Box JSON listing (`items` entries of the
`/app-api/enduserapp/shared-folder` payload): keys `type`, `id`, `name`,
`filesCount` (spec section 6). -/

structure Item where
  id : Nat
  name : Str
  type : Str
  filesCount : Nat
deriving DecidableEq, Repr

/-- The parsed JSON payload of one listing page: the `items` array and the
`pageCount` reported by the service on that page. -/
structure PageData where
  items : List Item
  pageCount : Nat
deriving DecidableEq, Repr

/-- `utils.extract_folders`: items whose `type` is `'folder'`, built into a
new sequence by a list comprehension. -/
def extract_folders (data : PageData) : List Item :=
  data.items.filter (fun i => i.type == "folder".data)

/-- `utils.extract_files`: items whose `type` is `'file'`, built into a new
sequence by a list comprehension. -/
def extract_files (data : PageData) : List Item :=
  data.items.filter (fun i => i.type == "file".data)

/-- `utils.get_page_count`: the `pageCount` value of one parsed response
(the source defaults to 1 when the key is absent; the model makes the key a
field, per the data contract of spec section 6). -/
def get_page_count (data : PageData) : Nat := data.pageCount

/-! ### utils.validate_state_abbreviation -/

/-- The fixed 50-state reference set `utils.valid_states`. -/
def valid_states : List Str :=
  (["AL", "AK", "AZ", "AR", "CA", "CO", "CT", "DE", "FL", "GA",
    "HI", "ID", "IL", "IN", "IA", "KS", "KY", "LA", "ME", "MD",
    "MA", "MI", "MN", "MS", "MO", "MT", "NE", "NV", "NH", "NJ",
    "NM", "NY", "NC", "ND", "OH", "OK", "OR", "PA", "RI", "SC",
    "SD", "TN", "TX", "UT", "VT", "VA", "WA", "WV", "WI", "WY"] :
    List String).map String.data

/-- `utils.validate_state_abbreviation`.  `if not state: return None`; then
the upper-cased form is returned when it is in `valid_states`; otherwise the
source executes `return state`, handing back the original string. -/
def validate_state_abbreviation (state : Str) : Option Str :=
  if state.isEmpty then none
  else
    let state_upper := upperStr state
    if valid_states.contains state_upper then some state_upper
    else some state

/-! ### utils.parse_json_response

The HTML document is abstracted to the list of its script-block texts
(`soup.find_all('script')`, each tag's `.string`), and the JSON library
`json.loads` to an arbitrary function `loads` returning `none` exactly when
its argument is not valid JSON.  The source indexes `[-1]` into the script
list (raising on an empty document), strips the payload with
`script.split('Box.postStreamData = ', 1)[-1].rsplit(';', 1)[0]`, and hands
the result to `json.loads`; every raised exception is modelled as `none`. -/

def box_marker : Str := "Box.postStreamData = ".data

/-- The substring of one script text that the source passes to `json.loads`. -/
def extract_payload (script : Str) : Str :=
  beforeLastL (afterFirstL script box_marker) ";".data

/-- `utils.parse_json_response`, parameterized by the JSON library. -/
def parse_json_response {J : Type} (loads : Str → Option J) (scripts : List Str) :
    Option J :=
  match scripts.getLast? with
  | none => none
  | some script => loads (extract_payload script)

/-! ### Pagination loops (scraper.py)

A remote folder is modelled by the page-indexed contents of its listing and
the page count the service reports in every response of that listing. -/

structure RemoteFolder where
  pages : Nat → List Item
  pageCount : Nat

/-- The parsed response for page `p` of a remote folder's listing. -/
def pageData (r : RemoteFolder) (p : Nat) : PageData :=
  ⟨r.pages p, r.pageCount⟩

/-- The year-folder lookup loop of `get_available_states` (scraper.py lines
185-194): fetch `NAIP_ROOT_URL + f'?page={page}'`, search the page's folders
for one named `year`, stop when found or when `page >= get_page_count(data)`.
Returns the found folder and the list of page numbers fetched, in order.
The fuel argument only bounds the recursion; the zero-fuel fallback is
unreachable for the `r.pageCount` fuel supplied by `find_year_paged`. -/
def year_loop_paged (r : RemoteFolder) (year : Str) : Nat → Nat → Option Item × List Nat
  | fuel, page =>
    let data := pageData r page
    let folders := extract_folders data
    let year_folder := folders.find? (fun f => f.name == year)
    if year_folder.isSome || page ≥ get_page_count data then (year_folder, [page])
    else
      match fuel with
      | 0 => (year_folder, [page])
      | Nat.succ fuel' =>
        let step := year_loop_paged r year fuel' (page + 1)
        (step.1, page :: step.2)

/-- Year-folder resolution as `get_available_states` performs it. -/
def find_year_paged (r : RemoteFolder) (year : Str) : Option Item × List Nat :=
  year_loop_paged r year r.pageCount 1

/-- The year-folder lookup loop of `download_state_data` (scraper.py lines
374-384).  The source requests `NAIP_ROOT_URL` with no `page` query
parameter, so every iteration fetches page 1 of the root listing even though
the loop counter `page` is incremented and compared against the reported
page count. -/
def year_loop_dsd (r : RemoteFolder) (year : Str) : Nat → Nat → Option Item × List Nat
  | fuel, page =>
    let data := pageData r 1
    let folders := extract_folders data
    let year_folder := folders.find? (fun f => f.name == year)
    if year_folder.isSome || page ≥ get_page_count data then (year_folder, [1])
    else
      match fuel with
      | 0 => (year_folder, [1])
      | Nat.succ fuel' =>
        let step := year_loop_dsd r year fuel' (page + 1)
        (step.1, 1 :: step.2)

/-- Year-folder resolution as `download_state_data` performs it. -/
def find_year_dsd (r : RemoteFolder) (year : Str) : Option Item × List Nat :=
  year_loop_dsd r year r.pageCount 1

/-! ### Composite-folder selection (scraper.py lines 416-428) -/

/-- Does the folder's lower-cased name contain `<state>_m`? -/
def isMultiFolder (state_lower : Str) (f : Item) : Bool :=
  containsL (lowerStr f.name) (state_lower ++ "_m".data)

/-- Does the folder's lower-cased name contain `<state>_c`? -/
def isCirFolder (state_lower : Str) (f : Item) : Bool :=
  containsL (lowerStr f.name) (state_lower ++ "_c".data)

/-- Does the folder's lower-cased name contain `<state>_n`? -/
def isRgbFolder (state_lower : Str) (f : Item) : Bool :=
  containsL (lowerStr f.name) (state_lower ++ "_n".data)

/-- The accumulator loop of the selection: on a `<state>_m` name the
accumulated list is replaced by `[folder]` and the loop breaks; a
`<state>_c` or `<state>_n` name is appended; anything else is passed over. -/
def select_composite_go (state_lower : Str) (acc : List Item) :
    List Item → List Item
  | [] => acc
  | f :: rest =>
    if isMultiFolder state_lower f then [f]
    else if isCirFolder state_lower f || isRgbFolder state_lower f then
      select_composite_go state_lower (acc ++ [f]) rest
    else
      select_composite_go state_lower acc rest

/-- The composite-folder selection of `download_state_data`, applied to the
state folder's children.  The source consults no filter mode here. -/
def select_composite_folders (state : Str) (folders : List Item) : List Item :=
  select_composite_go (lowerStr state) [] folders

/-! ### CLI constructor call (cli.py lines 158-164 vs scraper.py lines 39-41)

Python raises `TypeError` on a call that passes a keyword argument the
callee's signature does not name. -/

/-- The named parameters of `NAIPScraper.__init__` (scraper.py lines 39-41). -/
def naip_scraper_init_params : List String :=
  ["base_url", "output_dir", "unzip", "overwrite"]

/-- The keyword arguments `cli.main` passes to `NAIPScraper(...)` (cli.py
lines 158-164). -/
def cli_scraper_init_kwargs : List String :=
  ["output_dir", "unzip", "overwrite", "cir_only", "rgb_only"]

/-- The keywords of that call that `__init__` does not accept; Python raises
`TypeError` at the call exactly when this list is non-empty. -/
def cli_init_unexpected_kwargs : List String :=
  cli_scraper_init_kwargs.filter (fun k => !naip_scraper_init_params.contains k)

/-! ### Download loop of one composite folder
(`_download_all_files_in_folder`, scraper.py lines 504-551)

The local filesystem is modelled as the lists of existing regular-file paths
and existing directory paths; `os.path.exists` is true on either. -/

structure FS where
  files : List Str
  dirs : List Str
deriving DecidableEq, Repr

/-- `os.path.exists`. -/
def path_exists (fs : FS) (p : Str) : Bool :=
  fs.files.contains p || fs.dirs.contains p

/-- Record a path in a path list if it is not already present. -/
def insertPath (l : List Str) (p : Str) : List Str :=
  if l.contains p then l else p :: l

/-- One remote file of the folder listing, together with whether its bytes
form a readable zip archive (deciding the `zipfile` outcome). -/
structure DFile where
  name : Str
  is_valid_zip : Bool
deriving DecidableEq, Repr

/-- `os.path.join(output_dir, file['name'])`. -/
def os_path_join (dir name : Str) : Str := dir ++ "/".data ++ name

/-- `filepath = os.path.join(output_dir, file['name'])`. -/
def target_filepath (dir : Str) (f : DFile) : Str := os_path_join dir f.name

/-- `folder_name = filepath.replace('.zip', '')` — every occurrence of the
substring `.zip` is removed, not only a trailing extension. -/
def target_folder_name (dir : Str) (f : DFile) : Str :=
  replaceAllL (target_filepath dir f) ".zip".data []

/-- The body of the per-file loop of `_download_all_files_in_folder`:
skip when (without overwrite) the extraction directory path or the file path
already exists; otherwise write the file (`open(filepath, 'wb')` raises when
`filepath` names an existing directory, which the page-level handler turns
into a loop break, modelled as `none`); then, with unzip on and a name whose
lower-casing ends in `.zip`, try extraction: it succeeds when the archive is
readable and `folder_name` is not an existing regular file, after which the
archive is removed; on any extraction failure a warning is printed and the
archive is kept.  Returns the new filesystem and whether the file counted as
downloaded. -/
def process_file (unzip overwrite : Bool) (dir : Str) (fs : FS) (f : DFile) :
    Option (FS × Bool) :=
  let filepath := target_filepath dir f
  let folder_name := target_folder_name dir f
  if !overwrite && path_exists fs folder_name then some (fs, false)
  else if !overwrite && path_exists fs filepath then some (fs, false)
  else if fs.dirs.contains filepath then none
  else
    let fs1 : FS := ⟨insertPath fs.files filepath, fs.dirs⟩
    if unzip && endsWithL (lowerStr filepath) ".zip".data then
      if f.is_valid_zip && !fs1.files.contains folder_name then
        some (⟨fs1.files.erase filepath, insertPath fs1.dirs folder_name⟩, true)
      else
        some (fs1, true)
    else
      some (fs1, true)

/-- The file loop of `_download_all_files_in_folder` over the folder's file
sequence: processes the files in order, counting downloads; an exception in
the body breaks the loop and the method returns with the filesystem as it
stands. -/
def download_folder (unzip overwrite : Bool) (dir : Str) :
    FS → List DFile → FS × Nat
  | fs, [] => (fs, 0)
  | fs, f :: rest =>
    match process_file unzip overwrite dir fs f with
    | none => (fs, 0)
    | some (fs', downloaded) =>
      let step := download_folder unzip overwrite dir fs' rest
      (step.1, (if downloaded then 1 else 0) + step.2)

/-! ### Bulk operation loops (scraper.py lines 276-282, 308-320, 343-349)

Each loop body is wrapped in `try/except Exception: print(...); continue`,
so a failing target is logged and the loop moves on.  Per-target processing
is a parameter returning `Except`; the loop records each target's outcome. -/

/-- The state loop of `download_all_states`: `download_state_data` for each
state, every exception caught and logged. -/
def download_all_states_loop {E : Type} (download_state : String → Except E Unit) :
    List String → List (String × Option E)
  | [] => []
  | s :: rest =>
    match download_state s with
    | Except.ok _ => (s, none) :: download_all_states_loop download_state rest
    | Except.error e => (s, some e) :: download_all_states_loop download_state rest

/-- The year loop of `download_all_years_for_state`: inside the guarded body,
`get_available_states(year)` is consulted, years not listing the state are
passed over, and `download_state_data` runs otherwise; every exception is
caught and logged. -/
def download_all_years_for_state_loop {E : Type}
    (get_states : Nat → Except E (List String))
    (download : Nat → String → Except E Unit) (state : String) :
    List Nat → List (Nat × Option E)
  | [] => []
  | y :: rest =>
    let outcome : Option E :=
      match get_states y with
      | Except.error e => some e
      | Except.ok sts =>
        if state ∈ sts then
          match download y state with
          | Except.ok _ => none
          | Except.error e => some e
        else none
    (y, outcome) ::
      download_all_years_for_state_loop get_states download state rest

/-- The year loop of `download_all_years_all_states`: `download_all_states`
for each year, every exception caught and logged. -/
def download_all_years_all_states_loop {E : Type}
    (process_year : Nat → Except E Unit) : List Nat → List (Nat × Option E)
  | [] => []
  | y :: rest =>
    match process_year y with
    | Except.ok _ => (y, none) :: download_all_years_all_states_loop process_year rest
    | Except.error e => (y, some e) :: download_all_years_all_states_loop process_year rest

/-! ### Concrete fixtures used by the evaluation theorems and witnesses -/

/-- Root-listing folder named 2020 (fixture). -/
def f2020 : Item := ⟨10, "2020".data, "folder".data, 0⟩

/-- Root-listing folder named 2021 (fixture). -/
def f2021 : Item := ⟨20, "2021".data, "folder".data, 0⟩

/-- Root-listing folder named 2019 (fixture). -/
def f2019 : Item := ⟨30, "2019".data, "folder".data, 0⟩

/-- A 3-page root listing whose page 2 contains the folder named 2021. -/
def root3 : RemoteFolder :=
  ⟨fun p => if p = 1 then [f2020] else if p = 2 then [f2021] else
    if p = 3 then [f2019] else [], 3⟩

/-- A CIR composite folder of state MS (fixture). -/
def msC : Item := ⟨1, "ms_c_2021".data, "folder".data, 5⟩

/-- An RGB composite folder of state MS (fixture). -/
def msN : Item := ⟨2, "ms_n_2021".data, "folder".data, 5⟩

/-- A multispectral composite folder of state MS (fixture). -/
def msM : Item := ⟨3, "ms_m_2021".data, "folder".data, 5⟩

/-- A concrete instantiation of the JSON library for the parser theorems; it
agrees with `json.loads` on the only string it accepts: `json.loads('\x7b\x7d')`
succeeds and returns the empty object. -/
def loads0 : Str → Option Nat :=
  fun s => if s = "\x7b\x7d".data then some 0 else none

/-- A parsed one-page listing holding one folder item and one file item. -/
def d0 : PageData :=
  ⟨[⟨1, "2020".data, "folder".data, 0⟩, ⟨2, "m_1.zip".data, "file".data, 0⟩], 1⟩

/-! ### C2: composite-folder selection -/

/-- If a `<state>_m` folder occurs in the listing, the selection loop returns
exactly the first such folder, whatever was accumulated before it. -/
theorem select_go_multi (st : Str) (l : List Item) (f : Item) :
    ∀ acc, l.find? (isMultiFolder st) = some f → select_composite_go st acc l = [f] := by
  induction l with
  | nil => intro acc h; simp [List.find?] at h
  | cons g rest ih =>
    intro acc h
    by_cases hg : isMultiFolder st g
    · rw [List.find?_cons_of_pos _ hg] at h
      injection h with h
      subst h
      simp [select_composite_go, hg]
    · rw [List.find?_cons_of_neg _ hg] at h
      simp only [select_composite_go, hg, if_neg, Bool.not_eq_true]
      by_cases hc : (isCirFolder st g || isRgbFolder st g) = true
      · simp only [hg, if_false, hc, if_true]
        exact ih _ h
      · simp only [hg, if_false, hc, if_false]
        exact ih _ h

/-- With no `<state>_m` folder in the listing, the selection loop appends the
`<state>_c` and `<state>_n` folders to the accumulator in listing order. -/
theorem select_go_nomulti (st : Str) (l : List Item)
    (h : ∀ g ∈ l, isMultiFolder st g = false) :
    ∀ acc, select_composite_go st acc l =
      acc ++ l.filter (fun g => isCirFolder st g || isRgbFolder st g) := by
  induction l with
  | nil => intro acc; simp [select_composite_go]
  | cons g rest ih =>
    intro acc
    have hg : isMultiFolder st g = false := h g (List.mem_cons_self g rest)
    have hrest : ∀ g ∈ rest, isMultiFolder st g = false :=
      fun x hx => h x (List.mem_cons_of_mem g hx)
    by_cases hc : (isCirFolder st g || isRgbFolder st g) = true
    · simp only [select_composite_go, hg, Bool.false_eq_true, if_false, hc, if_true,
        List.filter_cons_of_pos]
      rw [ih hrest]
      simp
    · have hc' : (isCirFolder st g || isRgbFolder st g) = false := by
        simpa using hc
      simp only [select_composite_go, hg, Bool.false_eq_true, if_false, hc', if_false]
      rw [ih hrest, List.filter_cons_of_neg]
      simp [hc']

/-- C2: if any folder whose lowercased name contains `<state>_m` is present
among a state's children, the set of composite folders selected for download
is exactly that (first such) multispectral folder; otherwise the selected set
is all folders whose lowercased name contains `<state>_c` or `<state>_n`, in
listing order. -/
theorem composite_selection_policy (state : Str) (folders : List Item) :
    (∀ f, folders.find? (isMultiFolder (lowerStr state)) = some f →
      select_composite_folders state folders = [f]) ∧
    ((∀ g ∈ folders, isMultiFolder (lowerStr state) g = false) →
      select_composite_folders state folders =
        folders.filter (fun g =>
          isCirFolder (lowerStr state) g || isRgbFolder (lowerStr state) g)) := by
  constructor
  · intro f h
    exact select_go_multi _ _ f [] h
  · intro h
    rw [select_composite_folders, select_go_nomulti _ _ h []]
    rfl

/-- C2 witness: with MS children `ms_c`, `ms_n`, `ms_m` only the multispectral
folder is selected; without the `ms_m` folder both composites are selected in
listing order. -/
theorem composite_selection_policy_witness :
    select_composite_folders "MS".data [msC, msN, msM] = [msM] ∧
    select_composite_folders "MS".data [msC, msN] = [msC, msN] := by
  constructor
  · exact (composite_selection_policy "MS".data [msC, msN, msM]).1 msM (by decide)
  · rw [(composite_selection_policy "MS".data [msC, msN]).2 (by decide)]
    decide

/-! ### C4: state-code normalization -/

/-- C4 counterexample: the claim says `normalize("zz") = "ZZ"`, but
`validate_state_abbreviation` returns the original string `"zz"` for a code
outside the 50-state set (`return state`), and `"zz" ≠ "ZZ"`. -/
theorem validate_passthrough_counterexample :
    validate_state_abbreviation "zz".data = some "zz".data ∧
    "zz".data ≠ "ZZ".data := by decide

/-- C4 amended: for every non-empty input code, the upper-cased form is
returned when it is in the fixed 50-state set; otherwise the original input
is returned unchanged (pass-through, not upper-cased, not an error). -/
theorem validate_normalization (s : Str) (h : s ≠ []) :
    validate_state_abbreviation s =
      some (if valid_states.contains (upperStr s) then upperStr s else s) := by
  have he : s.isEmpty = false := by
    cases s with
    | nil => exact absurd rfl h
    | cons c t => rfl
  simp only [validate_state_abbreviation, he, Bool.false_eq_true, if_false]
  exact (apply_ite some _ _ _).symm

/-- C4 witness: `normalize("ms") = "MS"`. -/
theorem validate_normalization_witness :
    ("ms".data ≠ ([] : Str)) ∧
    validate_state_abbreviation "ms".data = some "MS".data := by
  refine ⟨by decide, ?_⟩
  rw [validate_normalization "ms".data (by decide)]
  decide

/-! ### C5: page parser error cases -/

/-- C5 counterexample: the claim says the parser fails whenever the marker
`Box.postStreamData = ` is absent from the last script block, but a
marker-free script whose whole text is valid JSON (`\x7b\x7d`) is parsed and
returned, not rejected. -/
theorem parse_marker_absent_counterexample :
    parse_json_response loads0 ["\x7b\x7d".data] = some 0 ∧
    containsL "\x7b\x7d".data box_marker = false := by decide

/-- C5 amended: the parser fails exactly when the document has no script
block, or when the JSON library rejects the extracted substring (the text
after the first marker occurrence when the marker is present, otherwise the
whole last-script text, in either case truncated before the last `;`); a
missing marker alone does not force an error. -/
theorem parse_error_characterization {J : Type} (loads : Str → Option J)
    (scripts : List Str) :
    (scripts = [] → parse_json_response loads scripts = none) ∧
    (∀ s, scripts.getLast? = some s →
      (parse_json_response loads scripts = none ↔
        loads (extract_payload s) = none)) := by
  constructor
  · rintro rfl; rfl
  · intro s hs
    unfold parse_json_response
    rw [hs]

/-- C5 witness: the characterization applied to a one-script document with a
well-formed embedded JSON block. -/
theorem parse_error_characterization_witness :
    (["x Box.postStreamData = \x7b\x7d;".data] : List Str).getLast? =
      some "x Box.postStreamData = \x7b\x7d;".data ∧
    (parse_json_response loads0 ["x Box.postStreamData = \x7b\x7d;".data] = none ↔
      loads0 (extract_payload "x Box.postStreamData = \x7b\x7d;".data) = none) :=
  ⟨by decide,
   (parse_error_characterization loads0 _).2 _ (by decide)⟩

/-! ### C6: folder/file partition of a parsed listing -/

/-- C6: for every parsed listing whose items carry the documented tags,
`extract_folders` returns exactly the items tagged `folder` and
`extract_files` exactly those tagged `file`; both preserve relative order
(they are sublists of the input), the two results are disjoint, and together
they are a permutation of the original item sequence. -/
theorem extract_partition (d : PageData)
    (h : ∀ i ∈ d.items, i.type = "folder".data ∨ i.type = "file".data) :
    (extract_folders d).Sublist d.items ∧
    (extract_files d).Sublist d.items ∧
    (∀ i, i ∈ extract_folders d ↔ i ∈ d.items ∧ i.type = "folder".data) ∧
    (∀ i, i ∈ extract_files d ↔ i ∈ d.items ∧ i.type = "file".data) ∧
    (∀ i, ¬(i ∈ extract_folders d ∧ i ∈ extract_files d)) ∧
    (extract_folders d ++ extract_files d).Perm d.items := by
  refine ⟨List.filter_sublist _, List.filter_sublist _, ?_, ?_, ?_, ?_⟩
  · intro i
    simp [extract_folders, List.mem_filter]
  · intro i
    simp [extract_files, List.mem_filter]
  · intro i ⟨h1, h2⟩
    simp [extract_folders, List.mem_filter] at h1
    simp [extract_files, List.mem_filter] at h2
    have := h1.2.symm.trans h2.2
    exact absurd this (by decide)
  · have hfiles : extract_files d =
        d.items.filter (fun i => !(i.type == "folder".data)) := by
      apply List.filter_congr
      intro i hi
      rcases h i hi with hf | hf
      · rw [hf]; decide
      · rw [hf]; decide
    rw [hfiles]
    exact List.filter_append_perm _ _

/-- C6 witness: the partition property on a concrete two-item listing. -/
theorem extract_partition_witness :
    (∀ i ∈ d0.items, i.type = "folder".data ∨ i.type = "file".data) ∧
    (extract_folders d0 ++ extract_files d0).Perm d0.items :=
  ⟨by decide, (extract_partition d0 (by decide)).2.2.2.2.2⟩

/-! ### C9: bulk loops survive per-target failures -/

/-- The state loop of `download_all_states` visits every state in order,
whatever outcome each per-state download has. -/
theorem all_states_loop_targets {E : Type} (d : String → Except E Unit) :
    ∀ ss : List String, (download_all_states_loop d ss).map Prod.fst = ss := by
  intro ss
  induction ss with
  | nil => rfl
  | cons s rest ih =>
    cases h : d s <;> simp [download_all_states_loop, h, ih]

/-- The year loop of `download_all_years_for_state` visits every year in
order, whatever outcome each year's processing has. -/
theorem years_for_state_loop_targets {E : Type}
    (g : Nat → Except E (List String)) (dl : Nat → String → Except E Unit)
    (st : String) :
    ∀ ys : List Nat,
      (download_all_years_for_state_loop g dl st ys).map Prod.fst = ys := by
  intro ys
  induction ys with
  | nil => rfl
  | cons y rest ih =>
    simp [download_all_years_for_state_loop, ih]

/-- The year loop of `download_all_years_all_states` visits every year in
order, whatever outcome each year's processing has. -/
theorem all_years_all_states_loop_targets {E : Type} (p : Nat → Except E Unit) :
    ∀ ys : List Nat,
      (download_all_years_all_states_loop p ys).map Prod.fst = ys := by
  intro ys
  induction ys with
  | nil => rfl
  | cons y rest ih =>
    cases h : p y <;> simp [download_all_years_all_states_loop, h, ih]

/-- C9: every bulk operation loop — all states for a year, all years for a
state, all years and states — attempts every resolved target exactly once in
order, for every behaviour of the per-target processing: an error on one
target is recorded and never aborts the enclosing loop. -/
theorem bulk_loops_attempt_every_target {E : Type}
    (download_state : String → Except E Unit)
    (get_states : Nat → Except E (List String))
    (download : Nat → String → Except E Unit) (state : String)
    (process_year : Nat → Except E Unit)
    (states : List String) (years yearsAll : List Nat) :
    (download_all_states_loop download_state states).map Prod.fst = states ∧
    (download_all_years_for_state_loop get_states download state years).map
      Prod.fst = years ∧
    (download_all_years_all_states_loop process_year yearsAll).map Prod.fst =
      yearsAll :=
  ⟨all_states_loop_targets download_state states,
   years_for_state_loop_targets get_states download state years,
   all_years_all_states_loop_targets process_year yearsAll⟩

/-! ### C1: pagination of year resolution -/

/-- C1: on the 3-page root listing whose page 2 holds the folder named 2021,
the year-resolution loop of `get_available_states` fetches exactly pages 1
and 2, each once, and returns that folder — but the year-resolution loop of
`download_state_data` requests the root URL without a page parameter, so it
fetches page 1 three times, never fetches pages 2 and 3, and finds no year
folder. -/
theorem year_resolution_page_fetches :
    find_year_paged root3 "2021".data = (some f2021, [1, 2]) ∧
    find_year_dsd root3 "2021".data = (none, [1, 1, 1]) := by decide

/-! ### C3: CIR/RGB filter flags -/

/-- C3: the CLI passes the keyword arguments `cir_only` and `rgb_only` to
`NAIPScraper.__init__`, whose signature accepts neither — Python raises
`TypeError` at that call — and the composite selection of
`download_state_data` consults no filter mode: with no multispectral folder
present it selects the `ms_n` folder even when only CIR composites were
requested. -/
theorem cli_filter_flags_eval :
    cli_init_unexpected_kwargs = ["cir_only", "rgb_only"] ∧
    select_composite_folders "ms".data [msC, msN] = [msC, msN] := by decide

/-! ### C7: idempotence of the folder download with overwrite off -/

/-- Is the file's extraction-directory path or its own path present? The
skip rule of `_download_all_files_in_folder` fires exactly on this. -/
def file_present (dir : Str) (fs : FS) (f : DFile) : Bool :=
  path_exists fs (target_folder_name dir f) || path_exists fs (target_filepath dir f)

/-- A path that does not exist is in neither path list. -/
theorem path_exists_false_parts (fs : FS) (p : Str) (h : path_exists fs p = false) :
    fs.files.contains p = false ∧ fs.dirs.contains p = false := by
  simpa [path_exists, Bool.or_eq_false_iff] using h

/-- Recording a fresh path conses it onto the list. -/
theorem insertPath_not_contains (l : List Str) (p : Str)
    (h : l.contains p = false) : insertPath l p = p :: l := by
  unfold insertPath
  rw [h]
  rfl

/-- A recorded path is a member of the resulting list. -/
theorem mem_insertPath_self (l : List Str) (p : Str) : p ∈ insertPath l p := by
  unfold insertPath
  split
  · next h => simpa using h
  · exact List.mem_cons_self p l

/-- Recording a path keeps every existing member. -/
theorem mem_insertPath_of_mem (l : List Str) (p q : Str) (h : q ∈ l) :
    q ∈ insertPath l p := by
  unfold insertPath
  split
  · exact h
  · exact List.mem_cons_of_mem p h

/-- A recorded path is contained in the resulting list. -/
theorem contains_insertPath_self (l : List Str) (p : Str) :
    (insertPath l p).contains p = true := by
  simpa using mem_insertPath_self l p

/-- Recording a path preserves containment of every other path. -/
theorem contains_insertPath_mono (l : List Str) (p q : Str)
    (h : l.contains q = true) : (insertPath l p).contains q = true := by
  simpa using mem_insertPath_of_mem l p q (by simpa using h)

/-- Writing a file preserves existence of every existing path. -/
theorem path_exists_insert_file (fs : FS) (p q : Str)
    (h : path_exists fs q = true) :
    path_exists ⟨insertPath fs.files p, fs.dirs⟩ q = true := by
  simp only [path_exists, Bool.or_eq_true] at h ⊢
  rcases h with h | h
  · exact Or.inl (contains_insertPath_mono _ _ _ h)
  · exact Or.inr h

/-- Creating a directory preserves existence of every existing path. -/
theorem path_exists_insert_dir (fs : FS) (p q : Str)
    (h : path_exists fs q = true) :
    path_exists ⟨fs.files, insertPath fs.dirs p⟩ q = true := by
  simp only [path_exists, Bool.or_eq_true] at h ⊢
  rcases h with h | h
  · exact Or.inl h
  · exact Or.inr (contains_insertPath_mono _ _ _ h)

/-- With overwrite off, one file step either skips (when the file's
extraction directory or the file itself exists, leaving the filesystem
untouched) or downloads, after which the file's presence is established and
every previously existing path still exists. -/
theorem process_file_spec (unzip : Bool) (dir : Str) (fs : FS) (f : DFile) :
    (file_present dir fs f = true ∧
      process_file unzip false dir fs f = some (fs, false)) ∨
    (file_present dir fs f = false ∧
      ∃ fs', process_file unzip false dir fs f = some (fs', true) ∧
        file_present dir fs' f = true ∧
        ∀ p, path_exists fs p = true → path_exists fs' p = true) := by
  by_cases h1 : path_exists fs (target_folder_name dir f) = true
  · exact Or.inl ⟨by simp [file_present, h1], by simp [process_file, h1]⟩
  · have h1' : path_exists fs (target_folder_name dir f) = false := by
      simpa using h1
    by_cases h2 : path_exists fs (target_filepath dir f) = true
    · exact Or.inl ⟨by simp [file_present, h1', h2], by simp [process_file, h1', h2]⟩
    · have h2' : path_exists fs (target_filepath dir f) = false := by
        simpa using h2
      have hparts := path_exists_false_parts fs _ h2'
      have hfp1 : insertPath fs.files (target_filepath dir f) =
          target_filepath dir f :: fs.files := insertPath_not_contains _ _ hparts.1
      refine Or.inr ⟨by simp [file_present, h1', h2'], ?_⟩
      simp only [process_file, h1', h2', hparts.2, Bool.not_false, Bool.true_and,
        Bool.false_eq_true, if_false]
      by_cases h4 : (unzip && endsWithL (lowerStr (target_filepath dir f)) ".zip".data) = true
      · rw [if_pos h4]
        by_cases h5 : (f.is_valid_zip &&
            !(insertPath fs.files (target_filepath dir f)).contains
              (target_folder_name dir f)) = true
        · rw [if_pos h5]
          refine ⟨_, rfl, ?_, ?_⟩
          · simp only [file_present, path_exists, Bool.or_eq_true]
            exact Or.inl (Or.inr (contains_insertPath_self _ _))
          · intro p hp
            rw [hfp1]
            have hp' : path_exists ⟨fs.files, insertPath fs.dirs
                (target_folder_name dir f)⟩ p = true := path_exists_insert_dir _ _ _ hp
            simp only [path_exists, Bool.or_eq_true] at hp' ⊢
            rcases hp' with h | h
            · exact Or.inl (by rw [List.erase_cons_head]; exact h)
            · exact Or.inr h
        · rw [if_neg h5]
          refine ⟨_, rfl, ?_, ?_⟩
          · simp only [file_present, path_exists, Bool.or_eq_true]
            exact Or.inr (Or.inl (contains_insertPath_self _ _))
          · intro p hp
            exact path_exists_insert_file _ _ _ hp
      · rw [if_neg h4]
        refine ⟨_, rfl, ?_, ?_⟩
        · simp only [file_present, path_exists, Bool.or_eq_true]
          exact Or.inr (Or.inl (contains_insertPath_self _ _))
        · intro p hp
          exact path_exists_insert_file _ _ _ hp

/-- Presence of a file's witnesses is preserved along any path-monotone
filesystem change. -/
theorem file_present_mono (dir : Str) (fs fs' : FS) (f : DFile)
    (hmono : ∀ p, path_exists fs p = true → path_exists fs' p = true)
    (h : file_present dir fs f = true) : file_present dir fs' f = true := by
  simp only [file_present, Bool.or_eq_true] at h ⊢
  rcases h with h | h
  · exact Or.inl (hmono _ h)
  · exact Or.inr (hmono _ h)

/-- With overwrite off, the folder download never removes an existing path. -/
theorem download_folder_mono (unzip : Bool) (dir : Str) :
    ∀ (files : List DFile) (fs : FS) (p : Str), path_exists fs p = true →
      path_exists (download_folder unzip false dir fs files).1 p = true := by
  intro files
  induction files with
  | nil => intro fs p hp; exact hp
  | cons f rest ih =>
    intro fs p hp
    rcases process_file_spec unzip dir fs f with ⟨_, heq⟩ | ⟨_, fs', heq, _, hmono⟩
    · simp only [download_folder, heq]
      exact ih fs p hp
    · simp only [download_folder, heq]
      exact ih fs' p (hmono p hp)

/-- With overwrite off, after the folder download every processed file's
extraction directory or file path exists. -/
theorem download_folder_establishes (unzip : Bool) (dir : Str) :
    ∀ (files : List DFile) (fs : FS) (f : DFile), f ∈ files →
      file_present dir (download_folder unzip false dir fs files).1 f = true := by
  intro files
  induction files with
  | nil => intro fs f hf; exact absurd hf (List.not_mem_nil f)
  | cons g rest ih =>
    intro fs f hf
    rcases process_file_spec unzip dir fs g with ⟨hg, heq⟩ | ⟨_, fs', heq, hg', hmono⟩
    · simp only [download_folder, heq]
      rcases List.mem_cons.mp hf with rfl | hf'
      · exact file_present_mono dir fs _ f
          (fun p hp => download_folder_mono unzip dir rest fs p hp) hg
      · exact ih fs f hf'
    · simp only [download_folder, heq]
      rcases List.mem_cons.mp hf with rfl | hf'
      · exact file_present_mono dir fs' _ f
          (fun p hp => download_folder_mono unzip dir rest fs' p hp) hg'
      · exact ih fs' f hf'

/-- With overwrite off, a folder download over a filesystem where every
file is already present downloads nothing and changes nothing. -/
theorem download_folder_all_skipped (unzip : Bool) (dir : Str) :
    ∀ (files : List DFile) (fs : FS),
      (∀ f ∈ files, file_present dir fs f = true) →
      download_folder unzip false dir fs files = (fs, 0) := by
  intro files
  induction files with
  | nil => intro fs _; rfl
  | cons f rest ih =>
    intro fs h
    have hf : file_present dir fs f = true := h f (List.mem_cons_self f rest)
    rcases process_file_spec unzip dir fs f with ⟨_, heq⟩ | ⟨hbad, _, _, _, _⟩
    · simp only [download_folder, heq]
      rw [ih fs (fun g hg => h g (List.mem_cons_of_mem f hg))]
      rfl
    · rw [hf] at hbad
      exact absurd hbad (by decide)

/-- C7: with overwrite off, running the folder download a second time over
the filesystem produced by a completed first run downloads zero new files
(every file is skipped because its extraction directory or the file itself
already exists) and leaves the directory tree identical to the first run's
result. -/
theorem download_idempotent (unzip : Bool) (dir : Str) (fs0 : FS)
    (files : List DFile) :
    download_folder unzip false dir
      (download_folder unzip false dir fs0 files).1 files =
      ((download_folder unzip false dir fs0 files).1, 0) :=
  download_folder_all_skipped unzip dir files _
    (fun f hf => download_folder_establishes unzip dir files fs0 f hf)

/-! ### C8: archive extraction outcomes -/

/-- C8 counterexample: for the downloaded archive `a.zip.b.zip`, successful
extraction places the entries in `d/a.b` — the path with every `.zip`
substring removed — not in the sibling named after the archive with the
extension stripped (`d/a.zip.b`). -/
theorem extraction_dirname_counterexample :
    process_file true false "d".data ⟨[], []⟩ ⟨"a.zip.b.zip".data, true⟩ =
      some (⟨[], ["d/a.b".data]⟩, true) ∧
    "d/a.b".data ≠ "d/a.zip.b".data := by decide

/-- C8 amended: for every file downloaded with auto-extract enabled whose
path ends in the archive extension, extraction succeeds when the archive is
readable and the target path (the archive path with every `.zip` substring
removed) is not an existing regular file: the archive is then deleted and
that sibling directory holds the entries.  If the archive is corrupt, or the
target path collides with the just-written archive file, the archive is left
in place with a warning; in every case the step returns normally — the
error is never raised to the caller. -/
theorem extraction_behavior (dir : Str) (fs : FS) (f : DFile)
    (hzip : endsWithL (lowerStr (target_filepath dir f)) ".zip".data = true)
    (hfn : path_exists fs (target_folder_name dir f) = false)
    (hfp : path_exists fs (target_filepath dir f) = false) :
    (f.is_valid_zip = true → target_folder_name dir f ≠ target_filepath dir f →
      process_file true false dir fs f =
        some (⟨fs.files, insertPath fs.dirs (target_folder_name dir f)⟩, true)) ∧
    ((f.is_valid_zip = false ∨ target_folder_name dir f = target_filepath dir f) →
      process_file true false dir fs f =
        some (⟨target_filepath dir f :: fs.files, fs.dirs⟩, true)) := by
  have hparts := path_exists_false_parts fs _ hfp
  have hfnparts := path_exists_false_parts fs _ hfn
  have hins : insertPath fs.files (target_filepath dir f) =
      target_filepath dir f :: fs.files := insertPath_not_contains _ _ hparts.1
  constructor
  · intro hv hne
    have hbeq : (target_folder_name dir f == target_filepath dir f) = false := by
      rw [beq_eq_false_iff_ne]
      exact hne
    simp only [process_file, hfn, hfp, hparts.2, Bool.not_false, Bool.true_and,
      Bool.false_eq_true, if_false, hins, hzip, hv, List.contains_cons,
      hfnparts.1, Bool.or_false, hbeq, Bool.not_false, Bool.and_self, if_true]
    rw [List.erase_cons_head]
  · intro hcase
    rcases hcase with hv | hfnfp
    · simp only [process_file, hfn, hfp, hparts.2, Bool.not_false, Bool.true_and,
        Bool.false_eq_true, if_false, hins, hzip, hv, Bool.false_and, Bool.and_self,
        if_true]
    · have hbeq : (target_folder_name dir f == target_filepath dir f) = true := by
        rw [hfnfp]
        exact beq_self_eq_true _
      simp only [process_file, hfn, hfp, hparts.2, Bool.not_false, Bool.true_and,
        Bool.false_eq_true, if_false, hins, hzip, List.contains_cons, hbeq,
        Bool.true_or, Bool.not_true, Bool.and_false, Bool.and_self, if_true]

/-- C8 witness: downloading `ms_m_2021.zip` into an empty tree with
auto-extract on removes the archive and leaves the directory `d/ms_m_2021`. -/
theorem extraction_behavior_witness :
    (endsWithL (lowerStr (target_filepath "d".data ⟨"ms_m_2021.zip".data, true⟩))
      ".zip".data = true) ∧
    process_file true false "d".data ⟨[], []⟩ ⟨"ms_m_2021.zip".data, true⟩ =
      some (⟨[], ["d/ms_m_2021".data]⟩, true) := by
  refine ⟨by decide, ?_⟩
  have h := (extraction_behavior "d".data ⟨[], []⟩ ⟨"ms_m_2021.zip".data, true⟩
    (by decide) (by decide) (by decide)).1 rfl (by decide)
  rw [h]
  decide

/-! ### C10: empty state code -/

/-- C10: the empty string is the only falsy Python `str`, and on it
`validate_state_abbreviation` returns `None` rather than any string. -/
theorem validate_empty_returns_none :
    validate_state_abbreviation "".data = none := by decide

end Naip
